import Mathlib

/-!
Shallow embedding of the synthetic-data pipeline (corpus planner,
synthetic value library, validation engine) and proofs of the spec claims.

Strings are modelled as lists of characters (`Str`), and the shared
pseudo-random source as a stream of natural numbers (`RNG`): each primitive
draw consumes the head of the stream.  `pyRandint a b` and `pyChoice`
mirror `random.randint` / `random.choice`; `randFrac` models
`random.random()` as a rational in `[0, 1)` with denominator 1000, represented
by its numerator (a `Nat` in `[0, 1000)`); configured probabilities are
likewise rationals in thousandths, represented by their numerators.
-/

abbrev Str := List Char
abbrev RNG := List Nat

def draw (g : RNG) : Nat × RNG :=
  match g with
  | [] => (0, [])
  | n :: rest => (n, rest)

def randFrac (g : RNG) : Nat × RNG :=
  let p := draw g
  (p.1 % 1000, p.2)

def pyRandint (a b : Nat) (g : RNG) : Nat × RNG :=
  let p := draw g
  (a + p.1 % (b + 1 - a), p.2)

def pyChoice {α : Type} (l : List α) (dflt : α) (g : RNG) : α × RNG :=
  let p := draw g
  (l.getD (p.1 % l.length) dflt, p.2)

/-! ### Decimal digit helpers (`str(n)` / `int(s)`) -/

def fromDigitsL (l : List Nat) : Nat := l.foldl (fun a d => 10 * a + d) 0

def natDigitsAux : Nat → Nat → List Nat
  | 0, _ => []
  | fuel + 1, n => if n < 10 then [n] else natDigitsAux fuel (n / 10) ++ [n % 10]

def natDigits (n : Nat) : List Nat := natDigitsAux (n + 1) n

def digitChar (d : Nat) : Char := Char.ofNat (48 + d)

def charDigit (c : Char) : Nat := c.toNat - 48

def natChars (n : Nat) : Str := (natDigits n).map digitChar

def fromDigitsChars (s : Str) : Nat := s.foldl (fun a c => 10 * a + charDigit c) 0

def padNum (w n : Nat) : Str := List.replicate (w - (natChars n).length) '0' ++ natChars n

def joinSep (sep : Char) : List Str → Str
  | [] => []
  | [s] => s
  | s :: rest => s ++ sep :: joinSep sep rest

def chunksAux (k : Nat) : Nat → Str → List Str
  | _, [] => []
  | 0, _ :: _ => []
  | fuel + 1, c :: rest => (c :: rest).take k :: chunksAux k fuel ((c :: rest).drop k)

/-- `[s[i:i+k] for i in range(0, len(s), k)]` -/
def pyChunks (k : Nat) (s : Str) : List Str := chunksAux k s.length s

def string_digits : Str := "0123456789".data

def string_ascii_uppercase : Str := "ABCDEFGHIJKLMNOPQRSTUVWXYZ".data

def string_ascii_letters : Str := "abcdefghijklmnopqrstuvwxyzABCDEFGHIJKLMNOPQRSTUVWXYZ".data

/-- `"".join(random.choice(string.digits) for _ in range(n))` -/
def drawDigitChars : Nat → RNG → Str × RNG
  | 0, g => ([], g)
  | n + 1, g =>
    let p := pyChoice string_digits '0' g
    let rest := drawDigitChars n p.2
    (p.1 :: rest.1, rest.2)

/-- `"".join(random.choice(string.ascii_uppercase) for _ in range(n))` -/
def drawUppercaseChars : Nat → RNG → Str × RNG
  | 0, g => ([], g)
  | n + 1, g =>
    let p := pyChoice string_ascii_uppercase 'A' g
    let rest := drawUppercaseChars n p.2
    (p.1 :: rest.1, rest.2)

/-! ### content_generator.py: checksum helpers and value generators -/

def everyOther {α : Type} : List α → List α
  | [] => []
  | [x] => [x]
  | x :: _ :: rest => x :: everyOther rest

def digitSum2 (d : Nat) : Nat := (natDigits (d * 2)).sum

/-- `luhn_checksum_for(body_digits)`: digits is the per-character digit list,
`odd_digits = digits[-1::-2]`, `even_digits = digits[-2::-2]`. -/
def luhn_checksum_for (digits : List Nat) : Nat :=
  let odd_digits := everyOther digits.reverse
  let even_digits := everyOther (digits.reverse.drop 1)
  let total := odd_digits.sum + (even_digits.map digitSum2).sum
  (10 - total % 10) % 10

def generate_ccn (tp : Bool) (g : RNG) : Str × RNG :=
  if !tp then ("0000 0000 0000 0000".data, g) else
  let d5 := pyChoice [1, 2, 3, 4, 5] 1 g
  let inner := pyChoice [('5' :: natChars d5.1), "51".data, "52".data, "53".data,
    "54".data, "55".data] [] d5.2
  let pre := pyChoice ["4".data, inner.1] [] inner.2
  let rest := drawDigitChars (15 - pre.1.length) pre.2
  let body := pre.1 ++ rest.1
  let check := luhn_checksum_for (body.map charDigit)
  let full := body ++ natChars check
  (joinSep ' ' (pyChunks 4 full), rest.2)

def iban_replace_chars : Str → Str
  | [] => []
  | ch :: rest =>
    (if ch.isDigit then [ch] else natChars (ch.toUpper.toNat - 55)) ++ iban_replace_chars rest

/-- One pass of the mod-97 chunk loop: `remainder = int(str(remainder) + block) % 97`. -/
def ibanRemStep (r : Nat) (block : Str) : Nat := fromDigitsChars (natChars r ++ block) % 97

def iban_calc_checksum (country_code bban : Str) : Nat :=
  let rearranged := bban ++ country_code ++ "00".data
  let numeric := iban_replace_chars rearranged
  let remainder := (pyChunks 9 numeric).foldl ibanRemStep 0
  98 - remainder

/-- The valid branch of `generate_iban`: `f"{country_code}{checksum}{bban}"` with
the fixed country code `"GB"` and the checksum zero-padded to two digits. -/
def generate_iban_tp (bban : Str) : Str :=
  "GB".data ++ padNum 2 (iban_calc_checksum "GB".data bban) ++ bban

def generate_iban (tp : Bool) (g : RNG) : Str × RNG :=
  if !tp then ("XX00 XXXX XXXX XXXX XXXX".data, g) else
  let bban := drawDigitChars 16 g
  (generate_iban_tp bban.1, bban.2)

def generate_ssn (tp : Bool) (g : RNG) : Str × RNG :=
  if !tp then ("XXX-XX-XXXX".data, g) else
  let p1 := pyRandint 100 899 g
  let p2 := pyRandint 10 99 p1.2
  let p3 := pyRandint 1000 9999 p2.2
  (padNum 3 p1.1 ++ ['-'] ++ padNum 2 p2.1 ++ ['-'] ++ padNum 4 p3.1, p3.2)

/-- Modelled from the spec: the auxiliary name/locale generator (Faker, out of
core scope) `ipv4()` — four dotted octets from the pseudo-random source. -/
def fakeIpv4 (g : RNG) : Str × RNG :=
  let a := pyRandint 0 255 g
  let b := pyRandint 0 255 a.2
  let c := pyRandint 0 255 b.2
  let d := pyRandint 0 255 c.2
  (natChars a.1 ++ ['.'] ++ natChars b.1 ++ ['.'] ++ natChars c.1 ++ ['.'] ++ natChars d.1, d.2)

def generate_ip (tp : Bool) (g : RNG) : Str × RNG :=
  if !tp then ("999.999.999.999".data, g) else fakeIpv4 g

def generate_aba (tp : Bool) (g : RNG) : Str × RNG :=
  if !tp then ("000000000".data, g) else drawDigitChars 9 g

def generate_dea (tp : Bool) (g : RNG) : Str × RNG :=
  if !tp then ("ZZ0000000".data, g) else
  let letters := drawUppercaseChars 2 g
  let digits := drawDigitChars 7 letters.2
  (letters.1 ++ digits.1, digits.2)

def generate_passport (tp : Bool) (g : RNG) : Str × RNG :=
  if !tp then ("XXXXXXXX".data, g) else
  let l := pyChoice string_ascii_uppercase 'A' g
  let digits := drawDigitChars 7 l.2
  (l.1 :: digits.1, digits.2)

def generate_bank_account (tp : Bool) (minLen maxLen : Nat) (g : RNG) : Str × RNG :=
  if !tp then ("0000000".data, g) else
  let len := pyRandint minLen maxLen g
  drawDigitChars len.1 len.2

/-- Uppercase letters excluding `DFIQUV` (first two NINO positions). -/
def ninoAllowed : Str := "ABCEGHJKLMNOPRSTWXYZ".data

def generate_nino (tp : Bool) (g : RNG) : Str × RNG :=
  if !tp then ("QQ000000C".data, g) else
  let l1 := pyChoice ninoAllowed 'A' g
  let l2 := pyChoice ninoAllowed 'A' l1.2
  let digits := drawDigitChars 6 l2.2
  let suf := pyChoice "ABCD".data 'A' digits.2
  (l1.1 :: l2.1 :: digits.1 ++ [suf.1], suf.2)

def generate_cpf (tp : Bool) (g : RNG) : Str × RNG :=
  if !tp then ("000.000.000-00".data, g) else
  let p1 := drawDigitChars 3 g
  let p2 := drawDigitChars 3 p1.2
  let p3 := drawDigitChars 3 p2.2
  let p4 := drawDigitChars 2 p3.2
  (p1.1 ++ ['.'] ++ p2.1 ++ ['.'] ++ p3.1 ++ ['-'] ++ p4.1, p4.2)

def pyUpper (s : Str) : Str := s.map Char.toUpper

def pyReplaceSpace (s : Str) : Str := s.map (fun c => if c = ' ' then '_' else c)

/-- `gen_generic_placeholder(sit_name, tp, sit_id)`; `if sit_id:` is Python
truthiness, i.e. the id string being non-empty. -/
def gen_generic_placeholder (sit_name : Str) (tp : Bool) (sit_id : Str) : Str :=
  if tp then ['<'] ++ pyUpper (pyReplaceSpace sit_name) ++ "_VALUE>".data
  else if sit_id ≠ [] then "REDACTED_".data ++ sit_id
  else "REDACTED_".data ++ pyUpper (pyReplaceSpace sit_name)

/-- Modelled from the spec: Faker `bothify` — each `?` becomes a random letter,
each `#` a random digit, all other pattern characters are kept. -/
def fakeBothify : Str → RNG → Str × RNG
  | [], g => ([], g)
  | c :: rest, g =>
    if c = '?' then
      let p := pyChoice string_ascii_letters 'a' g
      let r := fakeBothify rest p.2
      (p.1 :: r.1, r.2)
    else if c = '#' then
      let p := pyChoice string_digits '0' g
      let r := fakeBothify rest p.2
      (p.1 :: r.1, r.2)
    else
      let r := fakeBothify rest g
      (c :: r.1, r.2)

/-- Modelled from the spec: Faker `lexify` — only `?` is replaced (by a random
letter); in particular `#` placeholders are kept verbatim. -/
def fakeLexify : Str → RNG → Str × RNG
  | [], g => ([], g)
  | c :: rest, g =>
    if c = '?' then
      let p := pyChoice string_ascii_letters 'a' g
      let r := fakeLexify rest p.2
      (p.1 :: r.1, r.2)
    else
      let r := fakeLexify rest g
      (c :: r.1, r.2)

/-! ### content_generator.py: the SIT generators map and dispatch -/

def SIT_GENERATORS : List (Str × (Bool → RNG → Str × RNG)) := [
  ("SIT_CCN".data, generate_ccn),
  ("SIT_SSN".data, generate_ssn),
  ("SIT_ITIN".data, generate_ssn),
  ("SIT_PASSPORT_US_UK".data, generate_passport),
  ("SIT_BANK_US".data, fun tp g => generate_bank_account tp 6 17 g),
  ("SIT_DRIVER_US".data, fun tp g =>
    if tp then fakeBothify "?######?".data g else ("XXXXXXX".data, g)),
  ("SIT_ABA".data, generate_aba),
  ("SIT_DEA".data, generate_dea),
  ("SIT_EU_DEBIT".data, generate_ccn),
  ("SIT_ICD10".data, fun tp g =>
    if tp then fakeLexify "A##".data g else ("X00".data, g)),
  ("SIT_ICD9".data, fun tp g =>
    if tp then
      let a := pyRandint 100 999 g
      let b := pyRandint 0 99 a.2
      (natChars a.1 ++ ['.'] ++ natChars b.1, b.2)
    else ("000".data, g)),
  ("SIT_SWIFT".data, fun tp g =>
    if tp then drawUppercaseChars 8 g else ("XXXXXX".data, g)),
  ("SIT_CAN_SIN".data, fun tp g =>
    if tp then
      let a := pyRandint 100 999 g
      let b := pyRandint 100 999 a.2
      let c := pyRandint 100 999 b.2
      (natChars a.1 ++ ['-'] ++ natChars b.1 ++ ['-'] ++ natChars c.1, c.2)
    else ("000-000-000".data, g)),
  ("SIT_CAN_BANK".data, fun tp g => generate_bank_account tp 7 12 g),
  ("SIT_AUS_TFN".data, fun tp g =>
    if tp then drawDigitChars 8 g else ("00000000".data, g)),
  ("SIT_CAN_PHIN".data, fun tp g =>
    if tp then drawDigitChars 9 g else ("000000000".data, g)),
  ("SIT_CAN_DRIVER".data, fun tp g =>
    if tp then fakeBothify "??######".data g else ("XXXXXX".data, g)),
  ("SIT_CAN_HEALTH".data, fun tp g =>
    if tp then drawDigitChars 9 g else ("000000000".data, g)),
  ("SIT_AUS_DRIVER".data, fun tp g =>
    if tp then fakeBothify "??-######".data g else ("XXXX-000000".data, g)),
  ("SIT_AUS_PASSPORT".data, fun tp g =>
    if tp then
      let l := pyChoice string_ascii_uppercase 'A' g
      let digits := drawDigitChars 7 l.2
      (l.1 :: digits.1, digits.2)
    else ("A0000000".data, g)),
  ("SIT_AUS_BANK".data, fun tp g => generate_bank_account tp 6 9 g),
  ("SIT_AZURE_SAS".data, fun tp g =>
    (if tp then "sig=FAKE_SIG".data else "sig=XXXXX".data, g)),
  ("SIT_CAN_PASSPORT".data, generate_passport),
  ("SIT_AUS_MEDACC".data, fun tp g => generate_bank_account tp 6 12 g),
  ("SIT_IBAN".data, generate_iban),
  ("SIT_BR_CPF".data, generate_cpf),
  ("SIT_BR_RG".data, fun tp g =>
    if tp then
      let a := pyRandint 10 99 g
      let b := pyRandint 100 999 a.2
      let c := pyRandint 100 999 b.2
      let d := pyRandint 0 9 c.2
      (natChars a.1 ++ ['.'] ++ natChars b.1 ++ ['.'] ++ natChars c.1 ++ ['-'] ++ natChars d.1, d.2)
    else ("00.000.000-0".data, g)),
  ("SIT_UK_NINO".data, generate_nino),
  ("SIT_FR_INSEE".data, fun tp g =>
    if tp then drawDigitChars 13 g else ("0000000000000".data, g)),
  ("SIT_IP".data, generate_ip)]

def choose_generator (sit_id : Str) : Option (Bool → RNG → Str × RNG) :=
  (SIT_GENERATORS.find? (fun p => decide (p.1 = sit_id))).map Prod.snd

/-- `generate_sit_value(sit_id, sit_name, label)`; the embedded generators are
total, so the `except` fallback path of the source is unreachable here. -/
def generate_sit_value (sit_id sit_name label : Str) (g : RNG) : Str × RNG :=
  let tp := decide (label = "TP".data)
  match choose_generator sit_id with
  | some gen => gen tp g
  | none => (gen_generic_placeholder sit_name tp sit_id, g)

/-! ### Claim-side verification formulas (from the spec, for the round-trip
claims C1 and C4; deliberately written from the spec sentences, to be compared
against the source-derived generators) -/

/-- Luhn-weighted sum of a digit list given in reverse (rightmost digit first):
every second digit counting from the right is doubled and digit-summed,
starting with the second-from-right. -/
def luhnSumRev (dbl : Bool) : List Nat → Nat
  | [] => 0
  | d :: rest => (if dbl then digitSum2 d else d) + luhnSumRev (!dbl) rest

/-- Standard Luhn verification of a full digit string (check digit last). -/
def luhn_valid (ds : List Nat) : Bool := decide (luhnSumRev false ds.reverse % 10 = 0)

/-- Digits of a rendered card value, ignoring the grouping spaces. -/
def ccnDigits (s : Str) : List Nat := (s.filter (fun c => c.isDigit)).map charDigit

/-- Standard IBAN verification: move the first four characters to the end, map
letters to ordinal minus 55, and check that the number is `1 (mod 97)`. -/
def iban_mod97_check (s : Str) : Bool :=
  decide (fromDigitsChars (iban_replace_chars (s.drop 4 ++ s.take 4)) % 97 = 1)

/-! ### meta_generator.py: bucket sampling, confidence, and the planner loop -/

def sfbLoop (r : Nat) (cum : Nat) : List (Str × Nat) → Option Str
  | [] => none
  | (k, p) :: rest => if r ≤ cum + p then some k else sfbLoop r (cum + p) rest

/-- `sample_from_bucket(dist_map)`: cumulative-probability draw, falling back
to the last key when the draw stays unresolved. -/
def sample_from_bucket (dist : List (Str × Nat)) (g : RNG) : Str × RNG :=
  let p := randFrac g
  (match sfbLoop p.1 0 dist with
   | some k => k
   | none => (dist.map Prod.fst).getLastD [], p.2)

def parse_sit_count_bucket (bucket : Str) (g : RNG) : Nat × RNG :=
  if bucket = "1".data then (1, g)
  else if bucket = "2-3".data then pyRandint 2 3 g
  else if bucket = "4-6".data then pyRandint 4 6 g
  else if bucket = ">6".data then pyRandint 7 10 g
  else (1, g)

def parse_instance_bucket (bucket : Str) (g : RNG) : Nat × RNG :=
  if bucket = "1".data then (1, g)
  else if bucket = "3-5".data then pyRandint 3 5 g
  else if bucket = "6-10".data then pyRandint 6 10 g
  else if bucket = ">10".data then pyRandint 11 20 g
  else (1, g)

inductive Label where
  | TP
  | FP
deriving DecidableEq

/-- `assign_confidence(rules, label, instances)`; `highMin` is the configured
`rules['high']['min_instances']`. -/
def assign_confidence (highMin : Nat) (label : Label) (instances : Nat) : Str :=
  match label with
  | .TP =>
    if highMin ≤ instances then "High".data
    else if 3 ≤ instances ∧ instances ≤ 5 then "Medium".data
    else "Low".data
  | .FP =>
    if 3 ≤ instances then "Medium".data else "Low".data

structure PlanConfig where
  sits : List Str
  per_sit_count : Nat
  sit_count_distribution : List (Str × Nat)
  instance_count_distribution : List (Str × Nat)
  tpShare : Nat
  highMin : Nat
  formats : List Str
  main_range_share : Nat
  main_range_min : Nat
  main_range_max : Nat
  min_words : Nat
  max_words : Nat

structure SitAssign where
  sit_id : Str
  label : Label
  instances : Nat
  confidence : Str

structure DocPlan where
  doc_id : Nat
  format : Str
  word_count_target : Nat
  sits : List SitAssign

structure PState where
  docId : Nat
  counts : List (Str × Nat)
  docs : List DocPlan
  gen : RNG

/-- `sit_doc_counts.get(k, 0)` over the insertion-ordered counter dict. -/
def dGet (d : List (Str × Nat)) (k : Str) : Nat :=
  match d.find? (fun p => decide (p.1 = k)) with
  | some p => p.2
  | none => 0

/-- `sit_doc_counts[k] += 1` on a `defaultdict(int)`: update in place when the
key is present, otherwise insert it (at the end, in insertion order). -/
def dIncr (d : List (Str × Nat)) (k : Str) : List (Str × Nat) :=
  if d.any (fun p => decide (p.1 = k)) then
    d.map (fun p => if p.1 = k then (p.1, p.2 + 1) else p)
  else d ++ [(k, 1)]

/-- `all(count >= per_sit_target for count in sit_doc_counts.values()) and
len(sit_doc_counts) > 0`. -/
def allOk (target : Nat) (counts : List (Str × Nat)) : Bool :=
  counts.all (fun p => decide (target ≤ p.2)) && decide (0 < counts.length)

def insByCount (counts : List (Str × Nat)) (x : Str) : List Str → List Str
  | [] => [x]
  | y :: rest =>
    if dGet counts y < dGet counts x then y :: insByCount counts x rest
    else x :: y :: rest

/-- `sorted(keys, key=lambda x: sit_doc_counts.get(x, 0))` (stable, ascending). -/
def sortByCount (counts : List (Str × Nat)) : List Str → List Str
  | [] => []
  | x :: rest => insByCount counts x (sortByCount counts rest)

/-- The selection loop: walk the sorted candidates, stop at `n_sits` picks,
skip ids already chosen. -/
def pickChosen (nsits : Nat) : List Str → List Str → List Str
  | acc, [] => acc
  | acc, sid :: rest =>
    if nsits ≤ acc.length then acc
    else if sid ∈ acc then pickChosen nsits acc rest
    else pickChosen nsits (acc ++ [sid]) rest

def buildAssign (cfg : PlanConfig) (sid : Str) (g : RNG) : SitAssign × RNG :=
  let r := randFrac g
  let label := if r.1 < cfg.tpShare then Label.TP else Label.FP
  let b := sample_from_bucket cfg.instance_count_distribution r.2
  let inst := parse_instance_bucket b.1 b.2
  (⟨sid, label, inst.1, assign_confidence cfg.highMin label inst.1⟩, inst.2)

def buildAssigns (cfg : PlanConfig) : List Str → RNG → List SitAssign × RNG
  | [], g => ([], g)
  | sid :: rest, g =>
    let a := buildAssign cfg sid g
    let others := buildAssigns cfg rest a.2
    (a.1 :: others.1, others.2)

def drawWordCount (cfg : PlanConfig) (g : RNG) : Nat × RNG :=
  let r := randFrac g
  if r.1 < cfg.main_range_share then pyRandint cfg.main_range_min cfg.main_range_max r.2
  else pyRandint cfg.min_words cfg.max_words r.2

/-- One iteration of the planner loop body (after the stop-condition check). -/
def planStep (cfg : PlanConfig) (st : PState) : PState :=
  let fmt := pyChoice cfg.formats "document".data st.gen
  let bucket := sample_from_bucket cfg.sit_count_distribution fmt.2
  let nsits := parse_sit_count_bucket bucket.1 bucket.2
  let candidates := sortByCount st.counts cfg.sits
  let chosen := pickChosen nsits.1 [] candidates
  let sitsMeta := buildAssigns cfg chosen nsits.2
  let wc := drawWordCount cfg sitsMeta.2
  let plan : DocPlan := ⟨st.docId + 1, fmt.1, wc.1, sitsMeta.1⟩
  ⟨st.docId + 1, sitsMeta.1.foldl (fun d a => dIncr d a.sit_id) st.counts,
    st.docs ++ [plan], wc.2⟩

/-- `max_docs = int(len(sit_ids_cycle) * per_sit_target * 2.5)`. -/
def max_docs (cfg : PlanConfig) : Nat := cfg.sits.length * cfg.per_sit_count * 5 / 2

/-- The planner `while True` loop; the fuel argument only bounds the number of
iterations, and `max_docs` fuel is enough to always reach a genuine exit of the
loop (see the termination lemma below). -/
def planLoop (cfg : PlanConfig) : Nat → PState → PState
  | 0, st => st
  | fuel + 1, st =>
    if allOk cfg.per_sit_count st.counts || decide (max_docs cfg ≤ st.docId) then st
    else planLoop cfg fuel (planStep cfg st)

def initPState (g : RNG) : PState := ⟨0, [], [], g⟩

/-- `meta_generator.main`: run the planner loop from the empty state. -/
def meta_generate (cfg : PlanConfig) (g : RNG) : PState :=
  planLoop cfg (max_docs cfg) (initPState g)

/-! ### validator.py: placeholder heuristic -/

def pyIsSpace (c : Char) : Bool :=
  c = ' ' || c = '\t' || c = '\n' || c = '\x0d' || c = '\x0b' || c = '\x0c'

def pyLStrip (s : Str) : Str := s.dropWhile pyIsSpace

def pyRStrip (s : Str) : Str := (s.reverse.dropWhile pyIsSpace).reverse

/-- `str.strip()` (ASCII whitespace). -/
def pyStrip (s : Str) : Str := pyRStrip (pyLStrip s)

def isPrefixB : Str → Str → Bool
  | [], _ => true
  | _ :: _, [] => false
  | a :: arest, b :: brest => a = b && isPrefixB arest brest

/-- Python substring containment `pat in s`. -/
def containsSub (pat : Str) : Str → Bool
  | [] => isPrefixB pat []
  | b :: rest => isPrefixB pat (b :: rest) || containsSub pat rest

def placeholderWords : List Str :=
  ["xxx".data, "xxxx".data, "placeholder".data, "redacted".data, "example".data,
   "sample".data, "please".data, "share".data, "confidential".data, "document".data,
   "subject".data, "generated".data, "sig=xxxxx".data, "fake".data, "n/a".data,
   "number".data, "account".data]

def maskChar (c : Char) : Bool := c = 'x' || c = 'X' || c = '*' || c = '-' || c = '_'

def allSameChar (s : Str) : Bool :=
  match s with
  | [] => false
  | c :: rest => rest.all (fun d => decide (d = c))

/-- The character class of `^[a-z0-9._-]{1,6}$` under `re.IGNORECASE`. -/
def shortCodeChar (c : Char) : Bool :=
  c.isAlpha || c.isDigit || c = '.' || c = '_' || c = '-'

def ocrChar (c : Char) : Bool :=
  c = 'i' || c = 'l' || c = 'I' || c = 'o' || c = 'O' || c = '0'

/-- `re.search(r'[ilIoO0]{6,}', s)`: a run of six or more ambiguous characters. -/
def hasOcrRun (run : Nat) : Str → Bool
  | [] => false
  | c :: rest =>
    if ocrChar c then (if 6 ≤ run + 1 then true else hasOcrRun (run + 1) rest)
    else hasOcrRun 0 rest

/-- The `is_placeholder` heuristic of the Validation Engine, an ordered chain of
short-circuit checks over the stripped value. -/
def is_placeholder (value : Str) : Bool :=
  let s := pyStrip value
  if s.isEmpty then true
  else
    let low := s.map Char.toLower
    if placeholderWords.any (fun ph => containsSub ph low) then true
    else if containsSub "sig=".data low &&
        (containsSub "xxxxx".data low || containsSub "fake".data low) then true
    else if decide (3 ≤ s.length) && s.all maskChar then true
    else if allSameChar s && decide (6 ≤ s.length) then true
    else
      let digits_only := s.filter Char.isDigit
      if !digits_only.isEmpty && digits_only.all (fun c => decide (c = '0')) then true
      else if !digits_only.isEmpty && decide (digits_only.length < 4) &&
          decide (digits_only.length < s.length) then true
      else
        let token := s.filter (fun c => !pyIsSpace c)
        if decide (token.length ≤ 2) then true
        else if decide (1 ≤ s.length) && decide (s.length ≤ 6) && s.all shortCodeChar then true
        else
          let non_alnum := (s.filter (fun c => !c.isAlphanum)).length
          if decide (6 * max 1 s.length < 10 * non_alnum) then true
          else if hasOcrRun 0 s then true
          else false

/-! ### validator.py: per-row parsing and classification -/

def pySplitAux (sep : Char) : Str → Str → List Str
  | acc, [] => [acc.reverse]
  | acc, c :: rest =>
    if c = sep then acc.reverse :: pySplitAux sep [] rest
    else pySplitAux sep (c :: acc) rest

/-- Python `s.split(sep)` for a one-character separator (keeps empty pieces). -/
def pySplit (sep : Char) (s : Str) : List Str := pySplitAux sep [] s

/-- `[s for s in x.split(";") if s]` -/
def splitClean (s : Str) : List Str := (pySplit ';' s).filter (fun x => !x.isEmpty)

/-- `int(x)` on a piece of the instances column, `try`-guarded. -/
def pyParseNat (s : Str) : Option Nat :=
  if !s.isEmpty && s.all Char.isDigit then some (fromDigitsChars s) else none

/-- `inst_list`: built only when the instances column is non-empty; every
piece that fails to parse contributes a 1. -/
def parse_insts (s : Str) : List Nat :=
  if s.isEmpty then []
  else (pySplit ';' s).map (fun x => (pyParseNat x).getD 1)

inductive RowOutcome where
  | tpPass
  | tpFail
  | fpLeak
  | fpPass
deriving DecidableEq

/-- Per-assignment classification: TP passes when the non-placeholder match
count reaches `max(1, inst)`; FP leaks when any non-placeholder match exists. -/
def classify_row_entry (lbl : Str) (inst : Nat) (ms : List Str) : RowOutcome :=
  if lbl = "TP".data then
    let need := max 1 inst
    let found_real := (ms.filter (fun m => !is_placeholder m)).length
    if need ≤ found_real then .tpPass else .tpFail
  else
    if ms.any (fun m => !is_placeholder m) then .fpLeak else .fpPass

def process_entries (labels : List Str) (insts : List Nat)
    (matchesFor : Str → List Str) : Nat → List Str → List (Str × RowOutcome)
  | _, [] => []
  | i, sid0 :: rest =>
    let sid := pyStrip sid0
    (sid, classify_row_entry (labels.getD i "TP".data) (insts.getD i 1) (matchesFor sid)) ::
      process_entries labels insts matchesFor (i + 1) rest

/-- The per-row body of `validator.main`: parse the three delimited columns and
classify each positional assignment; `matchesFor` abstracts the regex matches
found in the row's extracted text for a given (stripped) category id. -/
def process_row (sitsS labelsS instS : Str) (matchesFor : Str → List Str) :
    List (Str × RowOutcome) :=
  process_entries (splitClean labelsS) (parse_insts instS) matchesFor 0 (splitClean sitsS)

/-! ### validator.py: text extraction over an abstract file system -/

structure FileRow where
  actual_file_path : Option Str
  docx_path : Option Str
  pdf_path : Option Str
  eml_path : Option Str
  filename : Option Str

/-- The abstract file system / format readers: `pathExists` models
`os.path.exists`, and each raw reader yields `none` when the file cannot be
read or converted (the situation the source catches with `except`). -/
structure FS where
  pathExists : Str → Bool
  rawTxt : Str → Option Str
  rawDocx : Str → Option Str
  rawPdf : Str → Option Str
  rawEml : Str → Option Str

def read_txt (fs : FS) (p : Str) : Str := (fs.rawTxt p).getD []

def read_docx (fs : FS) (p : Str) : Str := (fs.rawDocx p).getD []

def read_pdf (fs : FS) (p : Str) : Str := (fs.rawPdf p).getD []

def read_eml (fs : FS) (p : Str) : Str := (fs.rawEml p).getD []

/-- A mapping-row column contributes a candidate when present, truthy, and not
the string `"nan"`. -/
def optCand (f : Option Str) : List Str :=
  match f with
  | some v => if v ≠ [] ∧ v ≠ "nan".data then [v] else []
  | none => []

def rowCandidates (row : FileRow) : List Str :=
  let base := optCand row.actual_file_path ++ optCand row.docx_path ++
    optCand row.pdf_path ++ optCand row.eml_path ++ optCand row.filename
  match row.filename with
  | some v =>
    if v ≠ [] ∧ ¬ (base.any fun c => containsSub "output".data c) then
      base ++ ["output/files/".data ++ v]
    else base
  | none => base

def pyIsAbs (p : Str) : Bool :=
  match p with
  | '/' :: _ => true
  | _ => false

def endsWithB (suf s : Str) : Bool := isPrefixB suf.reverse s.reverse

def dispatch_read (fs : FS) (p : Str) : Str :=
  let lower := p.map Char.toLower
  if endsWithB ".txt".data lower then read_txt fs p
  else if endsWithB ".docx".data lower then read_docx fs p
  else if endsWithB ".pdf".data lower then read_pdf fs p
  else if endsWithB ".eml".data lower then read_eml fs p
  else read_txt fs p

/-- One candidate of the extraction loop: relative paths that do not exist are
retried under `output/files/`, missing paths are skipped (empty text). -/
def tryCandidate (fs : FS) (p0 : Str) : Str :=
  let p := if ¬ pyIsAbs p0 = true ∧ ¬ fs.pathExists p0 = true then
      (if fs.pathExists ("output/files/".data ++ p0) then "output/files/".data ++ p0 else p0)
    else p0
  if fs.pathExists p then dispatch_read fs p else []

def etrLoop (fs : FS) : List Str → Str
  | [] => []
  | p :: rest =>
    if p.isEmpty then etrLoop fs rest
    else
      let t := tryCandidate fs p
      if !t.isEmpty then t else etrLoop fs rest

/-- `extract_text_for_row(row)`: walk the candidate paths and return the first
non-empty extracted text, or the empty string. -/
def extract_text_for_row (fs : FS) (row : FileRow) : Str := etrLoop fs (rowCandidates row)

/-- A tiny concrete planner configuration (two categories, target 1, the
category-count bucket fixed at `"1"`) used for concrete runs. -/
def cfgDemo : PlanConfig :=
  ⟨["A".data, "B".data], 1, [("1".data, 1000)], [("1".data, 1000)], 1000, 6,
    ["document".data], 1000, 10, 20, 5, 100⟩

/-! ## Lemmas: decimal digits and character digits -/

theorem charDigit_digitChar {d : Nat} (h : d < 10) : charDigit (digitChar d) = d := by
  interval_cases d <;> decide

theorem digitChar_isDigit {d : Nat} (h : d < 10) : (digitChar d).isDigit = true := by
  interval_cases d <;> decide

theorem fromDigitsChars_foldl_acc (b : Str) :
    ∀ acc : Nat, b.foldl (fun a c => 10 * a + charDigit c) acc =
      acc * 10 ^ b.length + fromDigitsChars b := by
  induction b with
  | nil => intro acc; simp [fromDigitsChars]
  | cons c rest ih =>
    intro acc
    simp only [List.foldl_cons, List.length_cons, fromDigitsChars]
    rw [ih (10 * acc + charDigit c), ih (10 * 0 + charDigit c)]
    ring

theorem fromDigitsChars_append (a b : Str) :
    fromDigitsChars (a ++ b) = fromDigitsChars a * 10 ^ b.length + fromDigitsChars b := by
  simp only [fromDigitsChars, List.foldl_append]
  exact fromDigitsChars_foldl_acc b (List.foldl (fun a c => 10 * a + charDigit c) 0 a)

theorem natDigitsAux_all_lt10 : ∀ fuel n, n < fuel → ∀ d ∈ natDigitsAux fuel n, d < 10 := by
  intro fuel
  induction fuel with
  | zero => intro n h; omega
  | succ f ih =>
    intro n _ d hd
    by_cases h10 : n < 10
    · simp [natDigitsAux, h10] at hd; omega
    · simp only [natDigitsAux, if_neg h10, List.mem_append, List.mem_singleton] at hd
      rcases hd with hd | hd
      · exact ih (n / 10) (by omega) d hd
      · omega

theorem natChars_eval : ∀ fuel n, n < fuel →
    fromDigitsChars ((natDigitsAux fuel n).map digitChar) = n := by
  intro fuel
  induction fuel with
  | zero => intro n h; omega
  | succ f ih =>
    intro n hn
    by_cases h10 : n < 10
    · simp [natDigitsAux, h10, fromDigitsChars, charDigit_digitChar h10]
    · have hdiv : n / 10 < f := by omega
      simp only [natDigitsAux, if_neg h10, List.map_append, List.map_cons, List.map_nil]
      rw [fromDigitsChars_append, ih (n / 10) hdiv]
      have hm : n % 10 < 10 := Nat.mod_lt _ (by omega)
      simp [fromDigitsChars, charDigit_digitChar hm]
      omega

theorem fromDigitsChars_natChars (n : Nat) : fromDigitsChars (natChars n) = n :=
  natChars_eval (n + 1) n (Nat.lt_succ_self n)

theorem natChars_all_isDigit (n : Nat) : ∀ c ∈ natChars n, c.isDigit = true := by
  intro c hc
  simp only [natChars, List.mem_map] at hc
  obtain ⟨d, hd, rfl⟩ := hc
  exact digitChar_isDigit (natDigitsAux_all_lt10 (n + 1) n (Nat.lt_succ_self n) d hd)

theorem natDigitsAux_single {fuel n : Nat} (hf : n < fuel) (h : n < 10) :
    natDigitsAux fuel n = [n] := by
  cases fuel with
  | zero => omega
  | succ f => simp [natDigitsAux, h]

theorem natChars_single {n : Nat} (h : n < 10) : natChars n = [digitChar n] := by
  simp [natChars, natDigits, natDigitsAux_single (Nat.lt_succ_self n) h]

theorem natChars_pair {n : Nat} (h10 : 10 ≤ n) (h99 : n ≤ 99) :
    natChars n = [digitChar (n / 10), digitChar (n % 10)] := by
  have hlt : ¬ n < 10 := by omega
  simp only [natChars, natDigits, natDigitsAux, if_neg hlt]
  rw [natDigitsAux_single (by omega) (by omega)]
  rfl

theorem padNum_two {n : Nat} (h : n ≤ 99) :
    ∃ c1 c2, padNum 2 n = [c1, c2] ∧ fromDigitsChars [c1, c2] = n ∧
      c1.isDigit = true ∧ c2.isDigit = true := by
  by_cases h10 : n < 10
  · refine ⟨'0', digitChar n, ?_, ?_, by decide, digitChar_isDigit h10⟩
    · simp [padNum, natChars_single h10, List.replicate]
    · have h0 : charDigit '0' = 0 := rfl
      simp [fromDigitsChars, charDigit_digitChar h10, h0]
  · have hpair := natChars_pair (by omega) h
    refine ⟨digitChar (n / 10), digitChar (n % 10), ?_, ?_, ?_, ?_⟩
    · simp [padNum, hpair]
    · simp [fromDigitsChars, charDigit_digitChar (show n / 10 < 10 by omega),
        charDigit_digitChar (show n % 10 < 10 by omega)]
      omega
    · exact digitChar_isDigit (by omega)
    · exact digitChar_isDigit (by omega)

/-! ## Lemmas: the IBAN mod-97 computation (claim C4) -/

theorem chunksAux_flatten (k : Nat) (hk : 1 ≤ k) :
    ∀ fuel s, s.length ≤ fuel → (chunksAux k fuel s).flatten = s := by
  intro fuel
  induction fuel with
  | zero =>
    intro s hs
    cases s with
    | nil => rfl
    | cons c rest => simp at hs
  | succ f ih =>
    intro s hs
    cases s with
    | nil => rfl
    | cons c rest =>
      simp only [chunksAux, List.flatten_cons]
      rw [ih ((c :: rest).drop k) (by simp at hs ⊢; omega)]
      exact List.take_append_drop k (c :: rest)

theorem pyChunks_flatten {k : Nat} (hk : 1 ≤ k) (s : Str) : (pyChunks k s).flatten = s :=
  chunksAux_flatten k hk s.length s le_rfl

theorem ibanRemStep_eq (r : Nat) (block : Str) :
    ibanRemStep r block = (r * 10 ^ block.length + fromDigitsChars block) % 97 := by
  simp [ibanRemStep, fromDigitsChars_append, fromDigitsChars_natChars]

theorem mod_mul_add (n A B D : Nat) : (A % n * B + D) % n = (A * B + D) % n :=
  ((Nat.mod_modEq A n).mul_right B).add_right D

theorem foldRem (cs : List Str) :
    ∀ r, r < 97 →
      cs.foldl ibanRemStep r =
        (r * 10 ^ cs.flatten.length + fromDigitsChars cs.flatten) % 97 := by
  induction cs with
  | nil =>
    intro r hr
    simp [fromDigitsChars, Nat.mod_eq_of_lt hr]
  | cons c rest ih =>
    intro r hr
    simp only [List.foldl_cons, List.flatten_cons, List.length_append]
    rw [ih (ibanRemStep r c) (by simp [ibanRemStep]; exact Nat.mod_lt _ (by omega)),
      ibanRemStep_eq, fromDigitsChars_append, mod_mul_add]
    congr 1
    ring

theorem iban_replace_append (a b : Str) :
    iban_replace_chars (a ++ b) = iban_replace_chars a ++ iban_replace_chars b := by
  induction a with
  | nil => rfl
  | cons c rest ih => simp [iban_replace_chars, ih]

theorem iban_replace_digits (s : Str) (h : ∀ c ∈ s, c.isDigit = true) :
    iban_replace_chars s = s := by
  induction s with
  | nil => rfl
  | cons c rest ih =>
    have hc : c.isDigit = true := h c (by simp)
    simp [iban_replace_chars, hc]
    exact ih (fun d hd => h d (by simp [hd]))

/-- Core of claim C4: the assembled value `"GB" + checksum + bban` passes
standard mod-97 IBAN verification, for every digit body. -/
theorem generate_iban_tp_mod97 (bban : Str) (h : ∀ c ∈ bban, c.isDigit = true) :
    iban_mod97_check (generate_iban_tp bban) = true := by
  have hrepl : iban_replace_chars bban = bban := iban_replace_digits bban h
  have hnum : iban_replace_chars (bban ++ "GB".data ++ "00".data) = bban ++ "161100".data := by
    rw [List.append_assoc, iban_replace_append, hrepl]
    rfl
  have hF : fromDigitsChars (bban ++ "161100".data) =
      fromDigitsChars bban * 10 ^ 6 + 161100 := by
    rw [fromDigitsChars_append]; rfl
  have hrem : (pyChunks 9 (bban ++ "161100".data)).foldl ibanRemStep 0 =
      (fromDigitsChars bban * 10 ^ 6 + 161100) % 97 := by
    rw [foldRem _ 0 (by omega), pyChunks_flatten (by omega), hF]
    simp
  have hcalc : iban_calc_checksum "GB".data bban =
      98 - (fromDigitsChars bban * 10 ^ 6 + 161100) % 97 := by
    simp only [iban_calc_checksum, hnum, hrem]
  have hle : (fromDigitsChars bban * 10 ^ 6 + 161100) % 97 < 97 := Nat.mod_lt _ (by omega)
  have hcs99 : iban_calc_checksum "GB".data bban ≤ 99 := by omega
  obtain ⟨c1, c2, hpad, hval, hd1, hd2⟩ := padNum_two hcs99
  have hshape : generate_iban_tp bban = 'G' :: 'B' :: c1 :: c2 :: bban := by
    simp [generate_iban_tp, hpad]
  rw [hshape]
  simp only [iban_mod97_check, List.drop, List.take]
  rw [decide_eq_true_eq]
  have hrepl4 : iban_replace_chars (bban ++ ['G', 'B', c1, c2]) =
      bban ++ ['1', '6', '1', '1', c1, c2] := by
    rw [iban_replace_append, hrepl]
    simp [iban_replace_chars, hd1, hd2]
    rfl
  rw [hrepl4]
  have hsplit : (['1', '6', '1', '1', c1, c2] : Str) = "1611".data ++ [c1, c2] := rfl
  have hsix : fromDigitsChars (bban ++ ['1', '6', '1', '1', c1, c2]) =
      fromDigitsChars bban * 10 ^ 6 + 161100 + iban_calc_checksum "GB".data bban := by
    rw [hsplit, ← List.append_assoc, fromDigitsChars_append, fromDigitsChars_append, hval]
    have h1611 : fromDigitsChars ("1611".data) = 1611 := rfl
    have hl2 : ([c1, c2] : Str).length = 2 := rfl
    have hl4 : ("1611".data : Str).length = 4 := rfl
    rw [h1611, hl2, hl4]
    ring
  rw [hsix, hcalc]
  omega

theorem string_digits_getD_isDigit (m : Nat) : (string_digits.getD m '0').isDigit = true := by
  rcases Nat.lt_or_ge m 10 with hm | hm
  · interval_cases m <;> decide
  · rw [List.getD_eq_default]
    · decide
    · simpa using hm

theorem drawDigitChars_isDigit : ∀ n g, ∀ c ∈ (drawDigitChars n g).1, c.isDigit = true := by
  intro n
  induction n with
  | zero => intro g c hc; simp [drawDigitChars] at hc
  | succ k ih =>
    intro g c hc
    simp only [drawDigitChars, List.mem_cons] at hc
    rcases hc with rfl | hc
    · exact string_digits_getD_isDigit _
    · exact ih _ c hc

/-- C4: every IBAN-style value returned by `generate_iban` with
`want_valid = true` (country code `GB`, two checksum digits, sixteen body
digits) satisfies standard mod-97 IBAN verification: moving the first four
characters to the end and mapping each letter to its ordinal minus 55 yields a
number that is `1` modulo `97`. -/
theorem c4_generate_iban_mod97 (g : RNG) : iban_mod97_check (generate_iban true g).1 = true := by
  have h : (generate_iban true g).1 = generate_iban_tp (drawDigitChars 16 g).1 := rfl
  rw [h]
  exact generate_iban_tp_mod97 _ (drawDigitChars_isDigit 16 g)

/-! ## Claim C1: the generated card number versus standard Luhn -/

/-- C1 (the code deviates): at the concrete pseudo-random draws that select
issuer prefix `4` and fourteen `0` filler digits, `generate_ccn(tp=True)`
returns `4000 0000 0000 0006`, whose digit string fails standard Luhn
verification (the correct check digit for that body is `2`, not `6`): the
check digit is computed with the doubling parity shifted by one place. -/
theorem c1_generate_ccn_fails_luhn :
    (generate_ccn true (List.replicate 17 0)).1 = "4000 0000 0000 0006".data ∧
      luhn_valid (ccnDigits (generate_ccn true (List.replicate 17 0)).1) = false ∧
      luhn_valid (ccnDigits "4000 0000 0000 0002".data) = true := by
  refine ⟨by decide, by decide, by decide⟩

/-! ## Lemmas: planner loop (claims C2, C5, C6) -/

theorem pyRandint_lower (a b : Nat) (g : RNG) : a ≤ (pyRandint a b g).1 :=
  Nat.le_add_right a _

theorem parse_sit_count_bucket_pos (b : Str) (g : RNG) :
    1 ≤ (parse_sit_count_bucket b g).1 := by
  unfold parse_sit_count_bucket
  split_ifs <;> simp [pyRandint] <;> omega

theorem parse_instance_bucket_pos (b : Str) (g : RNG) :
    1 ≤ (parse_instance_bucket b g).1 := by
  unfold parse_instance_bucket
  split_ifs <;> simp [pyRandint] <;> omega

theorem insByCount_length (c : List (Str × Nat)) (x : Str) :
    ∀ l, (insByCount c x l).length = l.length + 1 := by
  intro l
  induction l with
  | nil => rfl
  | cons y rest ih =>
    simp only [insByCount]
    split_ifs <;> simp [ih]

theorem sortByCount_length (c : List (Str × Nat)) :
    ∀ l, (sortByCount c l).length = l.length := by
  intro l
  induction l with
  | nil => rfl
  | cons x rest ih => simp [sortByCount, insByCount_length, ih]

theorem sortByCount_ne_nil (c : List (Str × Nat)) {l : List Str} (h : l ≠ []) :
    sortByCount c l ≠ [] := by
  intro hnil
  have := sortByCount_length c l
  rw [hnil] at this
  simp at this
  exact h (List.length_eq_zero.mp this.symm)

theorem pickChosen_ext (n : Nat) :
    ∀ cs acc, ∃ ext, pickChosen n acc cs = acc ++ ext := by
  intro cs
  induction cs with
  | nil => intro acc; exact ⟨[], by simp [pickChosen]⟩
  | cons sid rest ih =>
    intro acc
    by_cases h1 : n ≤ acc.length
    · exact ⟨[], by simp [pickChosen, h1]⟩
    · by_cases h2 : sid ∈ acc
      · obtain ⟨ext, he⟩ := ih acc
        exact ⟨ext, by simp [pickChosen, h1, h2, he]⟩
      · obtain ⟨ext, he⟩ := ih (acc ++ [sid])
        refine ⟨[sid] ++ ext, ?_⟩
        simp only [pickChosen, if_neg h1, h2, if_false]
        rw [he]
        simp

theorem pickChosen_ne_nil {n : Nat} (hn : 1 ≤ n) {cs : List Str} (hcs : cs ≠ []) :
    pickChosen n [] cs ≠ [] := by
  cases cs with
  | nil => exact absurd rfl hcs
  | cons sid rest =>
    obtain ⟨ext, he⟩ := pickChosen_ext n rest [sid]
    simp only [pickChosen]
    rw [if_neg (by simp; omega), if_neg (by simp)]
    have : ([] : List Str) ++ [sid] = [sid] := rfl
    rw [this, he]
    simp

theorem pickChosen_nodup (n : Nat) :
    ∀ cs acc, acc.Nodup → (pickChosen n acc cs).Nodup := by
  intro cs
  induction cs with
  | nil => intro acc h; simpa [pickChosen] using h
  | cons sid rest ih =>
    intro acc h
    by_cases h1 : n ≤ acc.length
    · simpa [pickChosen, h1] using h
    · by_cases h2 : sid ∈ acc
      · simpa [pickChosen, h1, h2] using ih acc h
      · have hns : (acc ++ [sid]).Nodup := by
          rw [List.nodup_append]
          refine ⟨h, List.nodup_singleton sid, ?_⟩
          intro x hx hx1
          simp at hx1
          exact h2 (hx1 ▸ hx)
        simpa [pickChosen, h1, h2] using ih (acc ++ [sid]) hns

theorem buildAssigns_ids (cfg : PlanConfig) :
    ∀ l g, ((buildAssigns cfg l g).1).map SitAssign.sit_id = l := by
  intro l
  induction l with
  | nil => intro g; rfl
  | cons sid rest ih =>
    intro g
    show (buildAssign cfg sid g).1.sit_id ::
      ((buildAssigns cfg rest (buildAssign cfg sid g).2).1).map SitAssign.sit_id = sid :: rest
    rw [ih]
    rfl

theorem buildAssigns_inst_pos (cfg : PlanConfig) :
    ∀ l g, ∀ a ∈ (buildAssigns cfg l g).1, 1 ≤ a.instances := by
  intro l
  induction l with
  | nil => intro g a ha; simp [buildAssigns] at ha
  | cons sid rest ih =>
    intro g a ha
    simp only [buildAssigns, List.mem_cons] at ha
    rcases ha with rfl | ha
    · exact parse_instance_bucket_pos _ _
    · exact ih _ a ha


theorem planStep_docId (cfg : PlanConfig) (st : PState) :
    (planStep cfg st).docId = st.docId + 1 := rfl

theorem planStep_docs_len (cfg : PlanConfig) (st : PState) :
    (planStep cfg st).docs.length = st.docs.length + 1 := by
  simp [planStep]

theorem buildAssigns_good (cfg : PlanConfig) {l : List Str} (hl : l ≠ []) (hnd : l.Nodup)
    (g : RNG) :
    (buildAssigns cfg l g).1 ≠ [] ∧ (((buildAssigns cfg l g).1).map SitAssign.sit_id).Nodup ∧
      ∀ a ∈ (buildAssigns cfg l g).1, 1 ≤ a.instances := by
  refine ⟨?_, ?_, buildAssigns_inst_pos cfg l g⟩
  · intro hnil
    apply hl
    have hmap := buildAssigns_ids cfg l g
    rw [hnil] at hmap
    exact hmap.symm
  · rw [buildAssigns_ids]
    exact hnd

theorem planStep_good (cfg : PlanConfig) (hcat : cfg.sits ≠ []) (st : PState) :
    ∀ p ∈ (planStep cfg st).docs, p ∈ st.docs ∨
      (p.sits ≠ [] ∧ (p.sits.map SitAssign.sit_id).Nodup ∧ ∀ a ∈ p.sits, 1 ≤ a.instances) := by
  intro p hp
  simp only [planStep, List.mem_append, List.mem_singleton] at hp
  rcases hp with hp | rfl
  · exact Or.inl hp
  · exact Or.inr (buildAssigns_good cfg
      (pickChosen_ne_nil (parse_sit_count_bucket_pos _ _) (sortByCount_ne_nil _ hcat))
      (pickChosen_nodup _ _ [] List.nodup_nil) _)

theorem planLoop_exit (cfg : PlanConfig) :
    ∀ fuel st, max_docs cfg ≤ st.docId + fuel →
      allOk cfg.per_sit_count (planLoop cfg fuel st).counts = true ∨
        max_docs cfg ≤ (planLoop cfg fuel st).docId := by
  intro fuel
  induction fuel with
  | zero =>
    intro st h
    right
    simpa [planLoop] using h
  | succ f ih =>
    intro st h
    by_cases hc : (allOk cfg.per_sit_count st.counts ||
        decide (max_docs cfg ≤ st.docId)) = true
    · rw [Bool.or_eq_true] at hc
      rcases hc with hc | hc
      · left
        simp only [planLoop]
        rw [if_pos (by simp [hc])]
        exact hc
      · right
        have hd := of_decide_eq_true hc
        simp only [planLoop]
        rw [if_pos (by simp [hc])]
        exact hd
    · simp only [planLoop, if_neg hc]
      exact ih (planStep cfg st) (by rw [planStep_docId]; omega)

theorem planLoop_docId_le (cfg : PlanConfig) :
    ∀ fuel st, st.docId ≤ max_docs cfg → (planLoop cfg fuel st).docId ≤ max_docs cfg := by
  intro fuel
  induction fuel with
  | zero => intro st h; simpa [planLoop] using h
  | succ f ih =>
    intro st h
    by_cases hc : (allOk cfg.per_sit_count st.counts ||
        decide (max_docs cfg ≤ st.docId)) = true
    · simp only [planLoop]
      rw [if_pos hc]
      exact h
    · simp only [planLoop, if_neg hc]
      rw [Bool.or_eq_true, not_or] at hc
      have hlt : ¬ max_docs cfg ≤ st.docId := by
        intro hle
        exact hc.2 (by simpa using hle)
      exact ih (planStep cfg st) (by rw [planStep_docId]; omega)

theorem planLoop_docs_len (cfg : PlanConfig) :
    ∀ fuel st, st.docs.length = st.docId →
      (planLoop cfg fuel st).docs.length = (planLoop cfg fuel st).docId := by
  intro fuel
  induction fuel with
  | zero => intro st h; simpa [planLoop] using h
  | succ f ih =>
    intro st h
    by_cases hc : (allOk cfg.per_sit_count st.counts ||
        decide (max_docs cfg ≤ st.docId)) = true
    · simp only [planLoop]
      rw [if_pos hc]
      exact h
    · simp only [planLoop, if_neg hc]
      refine ih (planStep cfg st) ?_
      rw [planStep_docId, planStep_docs_len, h]

theorem planLoop_good (cfg : PlanConfig) (hcat : cfg.sits ≠ []) :
    ∀ fuel st, (∀ p ∈ st.docs, p.sits ≠ [] ∧ (p.sits.map SitAssign.sit_id).Nodup ∧
        ∀ a ∈ p.sits, 1 ≤ a.instances) →
      ∀ p ∈ (planLoop cfg fuel st).docs, p.sits ≠ [] ∧
        (p.sits.map SitAssign.sit_id).Nodup ∧ ∀ a ∈ p.sits, 1 ≤ a.instances := by
  intro fuel
  induction fuel with
  | zero => intro st h; simpa [planLoop] using h
  | succ f ih =>
    intro st h
    by_cases hc : (allOk cfg.per_sit_count st.counts ||
        decide (max_docs cfg ≤ st.docId)) = true
    · intro p hp
      simp only [planLoop] at hp
      rw [if_pos hc] at hp
      exact h p hp
    · simp only [planLoop, if_neg hc]
      refine ih (planStep cfg st) ?_
      intro p hp
      rcases planStep_good cfg hcat st p hp with hmem | hgood
      · exact h p hmem
      · exact hgood

/-- C5: for every catalog and per-category target, the planner loop
terminates — the returned state satisfies the loop's own stop condition
(coverage reached, or the document counter at the safety ceiling) — and the
number of Document Plans it emits never exceeds the safety ceiling
`int(N * T * 2.5)`. -/
theorem c5_planner_terminates_within_ceiling (cfg : PlanConfig) (g : RNG) :
    (meta_generate cfg g).docs.length ≤ max_docs cfg ∧
      (allOk cfg.per_sit_count (meta_generate cfg g).counts = true ∨
        max_docs cfg ≤ (meta_generate cfg g).docId) := by
  have hlen : (meta_generate cfg g).docs.length = (meta_generate cfg g).docId :=
    planLoop_docs_len cfg (max_docs cfg) (initPState g) rfl
  have hle : (meta_generate cfg g).docId ≤ max_docs cfg :=
    planLoop_docId_le cfg (max_docs cfg) (initPState g) (Nat.zero_le _)
  have hexit := planLoop_exit cfg (max_docs cfg) (initPState g) (by simp [initPState])
  exact ⟨by omega, hexit⟩

/-- C2 counterexample: with the two-category catalog of `cfgDemo`, target 1,
and draws that put a single category into the first document, the loop stops
after one document: category `"B"` has coverage count `0 < 1`, and the total
`1` differs from the safety ceiling `5`.  The claim as stated is false. -/
theorem c2_counterexample_unseen_category :
    ¬ ((∀ sid ∈ cfgDemo.sits, cfgDemo.per_sit_count ≤ dGet (meta_generate cfgDemo []).counts sid) ∨
      (meta_generate cfgDemo []).docs.length = max_docs cfgDemo) := by
  decide

/-- C2 (amended): when the planner loop terminates, every category that has
been counted at least once (i.e. every key of the coverage counters) has a
document count reaching the per-category target, or the total number of
documents equals the safety ceiling `int(N * T * 2.5)`. -/
theorem c2_amended_counted_coverage (cfg : PlanConfig) (g : RNG) :
    (∀ kv ∈ (meta_generate cfg g).counts, cfg.per_sit_count ≤ kv.2) ∨
      (meta_generate cfg g).docs.length = max_docs cfg := by
  have hlen : (meta_generate cfg g).docs.length = (meta_generate cfg g).docId :=
    planLoop_docs_len cfg (max_docs cfg) (initPState g) rfl
  have hle : (meta_generate cfg g).docId ≤ max_docs cfg :=
    planLoop_docId_le cfg (max_docs cfg) (initPState g) (Nat.zero_le _)
  have hexit : allOk cfg.per_sit_count (meta_generate cfg g).counts = true ∨
      max_docs cfg ≤ (meta_generate cfg g).docId :=
    planLoop_exit cfg (max_docs cfg) (initPState g) (by simp [initPState])
  rcases hexit with hok | hceil
  · left
    simp only [allOk, Bool.and_eq_true, List.all_eq_true, decide_eq_true_eq] at hok
    exact fun kv hkv => hok.1 kv hkv
  · right
    omega

/-- C6: for every non-empty catalog, every Document Plan emitted by the
planner has a non-empty assignment list, no category id repeated within the
plan, and every assignment's instance count at least 1. -/
theorem c6_plan_invariants (cfg : PlanConfig) (g : RNG) (hcat : cfg.sits ≠ []) :
    ∀ p ∈ (meta_generate cfg g).docs, p.sits ≠ [] ∧
      (p.sits.map SitAssign.sit_id).Nodup ∧ ∀ a ∈ p.sits, 1 ≤ a.instances :=
  planLoop_good cfg hcat (max_docs cfg) (initPState g) (by simp [initPState])

theorem c6_witness :
    cfgDemo.sits ≠ [] ∧
      ∀ p ∈ (meta_generate cfgDemo []).docs, p.sits ≠ [] ∧
        (p.sits.map SitAssign.sit_id).Nodup ∧ ∀ a ∈ p.sits, 1 ≤ a.instances :=
  ⟨by decide, c6_plan_invariants cfgDemo [] (by decide)⟩

/-! ## Claim C7: the confidence tier function -/

/-- C7: for labels in `{TP, FP}`, instance count `n ≥ 1` and configured high
threshold `H`: the result is `High` iff `TP ∧ n ≥ H`; `Medium` iff
`(TP ∧ n < H ∧ 3 ≤ n ≤ 5) ∨ (FP ∧ n ≥ 3)`; and `Low` exactly otherwise — a
deterministic function of label, count, and threshold. -/
theorem c7_assign_confidence_cases (label : Label) (n highMin : Nat) (h : 1 ≤ n) :
    (assign_confidence highMin label n = "High".data ↔ label = Label.TP ∧ highMin ≤ n) ∧
    (assign_confidence highMin label n = "Medium".data ↔
      (label = Label.TP ∧ n < highMin ∧ 3 ≤ n ∧ n ≤ 5) ∨ (label = Label.FP ∧ 3 ≤ n)) ∧
    (assign_confidence highMin label n = "Low".data ↔
      ¬ (label = Label.TP ∧ highMin ≤ n) ∧
        ¬ ((label = Label.TP ∧ n < highMin ∧ 3 ≤ n ∧ n ≤ 5) ∨ (label = Label.FP ∧ 3 ≤ n))) := by
  have hHM : ("High".data : Str) ≠ "Medium".data := by decide
  have hHL : ("High".data : Str) ≠ "Low".data := by decide
  have hML : ("Medium".data : Str) ≠ "Low".data := by decide
  cases label <;> simp only [assign_confidence] <;> split_ifs <;> simp_all

theorem c7_witness :
    1 ≤ 4 ∧
      ((assign_confidence 6 Label.TP 4 = "High".data ↔ Label.TP = Label.TP ∧ 6 ≤ 4) ∧
       (assign_confidence 6 Label.TP 4 = "Medium".data ↔
         (Label.TP = Label.TP ∧ 4 < 6 ∧ 3 ≤ 4 ∧ 4 ≤ 5) ∨ (Label.TP = Label.FP ∧ 3 ≤ 4)) ∧
       (assign_confidence 6 Label.TP 4 = "Low".data ↔
         ¬ (Label.TP = Label.TP ∧ 6 ≤ 4) ∧
           ¬ ((Label.TP = Label.TP ∧ 4 < 6 ∧ 3 ≤ 4 ∧ 4 ≤ 5) ∨
             (Label.TP = Label.FP ∧ 3 ≤ 4)))) :=
  ⟨by decide, c7_assign_confidence_cases Label.TP 4 6 (by decide)⟩

/-! ## Claims C8 and C3: false-positive values -/

theorem choose_generator_cases {sid : Str} {gen : Bool → RNG → Str × RNG}
    (h : choose_generator sid = some gen) :
    ∃ p ∈ SIT_GENERATORS, p.1 = sid ∧ p.2 = gen := by
  simp only [choose_generator] at h
  obtain ⟨q, hq, hgen⟩ := Option.map_eq_some'.mp h
  have hq1 := List.find?_some hq
  simp only [decide_eq_true_eq] at hq1
  exact ⟨q, List.mem_of_find?_eq_some hq, hq1, hgen⟩

/-- C8: for every category id and name, the value returned for a `want_valid =
false` (`FP`) request does not depend on the state of the pseudo-random
source: the `FP` branch of every registered generator, and of the generic
fallback, is a fixed constant. -/
theorem c8_fp_value_deterministic (sid name : Str) (g1 g2 : RNG) :
    (generate_sit_value sid name "FP".data g1).1 =
      (generate_sit_value sid name "FP".data g2).1 := by
  simp only [generate_sit_value]
  cases hcg : choose_generator sid with
  | none => rfl
  | some gen =>
    obtain ⟨p, hmem, hid, hgen⟩ := choose_generator_cases hcg
    subst hgen
    fin_cases hmem <;> rfl

theorem isPrefixB_append_self : ∀ p t : Str, isPrefixB p (p ++ t) = true := by
  intro p t
  induction p with
  | nil => rfl
  | cons c rest ih => simp [isPrefixB, ih]

theorem containsSub_append_self (p t : Str) : containsSub p (p ++ t) = true := by
  cases p with
  | nil => cases t <;> simp [containsSub, isPrefixB]
  | cons c rest =>
    show containsSub (c :: rest) (c :: (rest ++ t)) = true
    simp [containsSub, isPrefixB, isPrefixB_append_self]

theorem pyLStrip_redacted (t : Str) :
    pyLStrip ("REDACTED_".data ++ t) = "REDACTED_".data ++ t := by
  show List.dropWhile pyIsSpace ('R' :: ("EDACTED_".data ++ t)) =
    'R' :: ("EDACTED_".data ++ t)
  exact List.dropWhile_cons_of_neg (by decide)

theorem pyRStrip_redacted (t : Str) :
    ∃ u, pyRStrip ("REDACTED_".data ++ t) = "REDACTED_".data ++ u := by
  unfold pyRStrip
  rw [List.reverse_append, List.dropWhile_append]
  by_cases h : (t.reverse.dropWhile pyIsSpace).isEmpty
  · refine ⟨[], ?_⟩
    rw [if_pos h]
    rw [show List.dropWhile pyIsSpace ("REDACTED_".data.reverse) =
      "REDACTED_".data.reverse from by decide]
    simp
  · refine ⟨(t.reverse.dropWhile pyIsSpace).reverse, ?_⟩
    rw [if_neg h, List.reverse_append, List.reverse_reverse]

theorem pyStrip_redacted (t : Str) :
    ∃ u, pyStrip ("REDACTED_".data ++ t) = "REDACTED_".data ++ u := by
  unfold pyStrip
  rw [pyLStrip_redacted]
  exact pyRStrip_redacted t

theorem is_placeholder_redacted (t : Str) :
    is_placeholder ("REDACTED_".data ++ t) = true := by
  obtain ⟨u, hu⟩ := pyStrip_redacted t
  have hany : placeholderWords.any
      (fun ph => containsSub ph (("REDACTED_".data ++ u).map Char.toLower)) = true := by
    apply List.any_eq_true.mpr
    refine ⟨"redacted".data, by decide, ?_⟩
    exact containsSub_append_self "redacted".data ('_' :: u.map Char.toLower)
  have hne : (("REDACTED_".data ++ u : Str).isEmpty) = false := rfl
  simp only [is_placeholder, hu, hne, hany]
  simp

theorem gen_generic_placeholder_fp (name sid : Str) :
    is_placeholder (gen_generic_placeholder name false sid) = true := by
  simp only [gen_generic_placeholder, if_false, Bool.false_eq_true]
  by_cases h : sid ≠ []
  · rw [if_pos h]
    exact is_placeholder_redacted sid
  · rw [if_neg h]
    exact is_placeholder_redacted _

/-- C3 counterexample: for the category `SIT_IP` the `FP` value is the fixed
string `999.999.999.999`, and the Validation Engine's heuristic classifies it
as NOT placeholder-like (twelve non-zero digits, few symbols).  The claim as
stated — every category's `FP` value is placeholder-like — is false. -/
theorem c3_counterexample_ip_fp_not_placeholder :
    is_placeholder (generate_sit_value "SIT_IP".data "IP Address".data "FP".data []).1
      = false := by
  decide

/-- C3 (amended): for every category id other than `SIT_IP`, the value
returned for a `want_valid = false` (`FP`) request is classified as
placeholder-like by the Validation Engine's `is_placeholder` heuristic. -/
theorem c3_amended_fp_placeholder_except_ip (sid name : Str) (g : RNG)
    (h : sid ≠ "SIT_IP".data) :
    is_placeholder (generate_sit_value sid name "FP".data g).1 = true := by
  simp only [generate_sit_value]
  cases hcg : choose_generator sid with
  | none => exact gen_generic_placeholder_fp name sid
  | some gen =>
    obtain ⟨p, hmem, hid, hgen⟩ := choose_generator_cases hcg
    subst hgen
    subst hid
    fin_cases hmem <;> first
      | exact absurd rfl h
      | exact of_decide_eq_true rfl

theorem c3_witness :
    ("SIT_CCN".data : Str) ≠ "SIT_IP".data ∧
      is_placeholder
        (generate_sit_value "SIT_CCN".data "Credit Card Number".data "FP".data []).1 = true :=
  ⟨by decide, c3_amended_fp_placeholder_except_ip "SIT_CCN".data
    "Credit Card Number".data [] (by decide)⟩

/-! ## Claim C9: text extraction degrades to empty text, never raises -/

theorem dispatch_read_empty (fs : FS) (q : Str)
    (h : fs.rawTxt q = none ∧ fs.rawDocx q = none ∧ fs.rawPdf q = none ∧ fs.rawEml q = none) :
    dispatch_read fs q = [] := by
  simp [dispatch_read, read_txt, read_docx, read_pdf, read_eml,
    h.1, h.2.1, h.2.2.1, h.2.2.2]

theorem tryCandidate_empty (fs : FS) (p : Str)
    (h : (∀ q, fs.pathExists q = false) ∨
      (∀ q, fs.rawTxt q = none ∧ fs.rawDocx q = none ∧ fs.rawPdf q = none ∧
        fs.rawEml q = none)) :
    tryCandidate fs p = [] := by
  rcases h with h | h
  · simp [tryCandidate, h]
  · simp only [tryCandidate]
    split_ifs with h1 h2 h3
    any_goals rfl
    all_goals exact dispatch_read_empty fs _ (h _)

theorem etrLoop_empty (fs : FS) (h : ∀ p, tryCandidate fs p = []) :
    ∀ l, etrLoop fs l = [] := by
  intro l
  induction l with
  | nil => rfl
  | cons p rest ih => simp [etrLoop, h p, ih]

/-- C9: extracting a mapping row's text is a total function of the (abstract)
file system; when no candidate path exists, or when every format-specific
reader fails (which the source absorbs into empty strings via `except`), the
result is the empty string rather than an error. -/
theorem c9_extract_degrades_to_empty (fs : FS) (row : FileRow)
    (h : (∀ p, fs.pathExists p = false) ∨
      (∀ p, fs.rawTxt p = none ∧ fs.rawDocx p = none ∧ fs.rawPdf p = none ∧
        fs.rawEml p = none)) :
    extract_text_for_row fs row = [] :=
  etrLoop_empty fs (fun p => tryCandidate_empty fs p h) (rowCandidates row)

theorem c9_witness :
    extract_text_for_row
      ⟨fun _ => false, fun _ => none, fun _ => none, fun _ => none, fun _ => none⟩
      ⟨none, none, none, none, some "doc_00001_document.txt".data⟩ = [] :=
  c9_extract_degrades_to_empty _ _ (Or.inl fun _ => rfl)

/-! ## Claim C10: positional defaults in the validator's per-row loop -/

theorem process_entries_getD (labels : List Str) (insts : List Nat)
    (mf : Str → List Str) (d : Str × RowOutcome) :
    ∀ l j i, i < l.length →
      (process_entries labels insts mf j l).getD i d =
        (pyStrip (l.getD i []),
          classify_row_entry (labels.getD (j + i) "TP".data) (insts.getD (j + i) 1)
            (mf (pyStrip (l.getD i [])))) := by
  intro l
  induction l with
  | nil => intro j i h; simp at h
  | cons s rest ih =>
    intro j i h
    cases i with
    | zero => simp [process_entries]
    | succ k =>
      have hk : k < rest.length := by simpa using h
      have hrec := ih (j + 1) k hk
      have he : j + 1 + k = j + (k + 1) := by omega
      rw [he] at hrec
      simpa [process_entries] using hrec

/-- C10: in the validator's per-row loop, a category at an index at or beyond
the end of the semicolon-delimited label list is treated as label `TP` — its
outcome is the TP classification, requiring at least `max(1, inst)` ≥ 1
non-placeholder matches — while an index beyond the instance list only
defaults the instance count to 1. -/
theorem c10_short_label_list_defaults_tp (sitsS labelsS instS : Str)
    (mf : Str → List Str) (i : Nat)
    (h1 : (splitClean labelsS).length ≤ i) (h2 : i < (splitClean sitsS).length) :
    ((process_row sitsS labelsS instS mf).getD i ([], RowOutcome.fpPass)).2 =
      (if max 1 ((parse_insts instS).getD i 1) ≤
          ((mf (pyStrip ((splitClean sitsS).getD i []))).filter
            (fun m => !is_placeholder m)).length
        then RowOutcome.tpPass else RowOutcome.tpFail) ∧
      ((parse_insts instS).length ≤ i → (parse_insts instS).getD i 1 = 1) := by
  constructor
  · rw [process_row, process_entries_getD _ _ _ _ _ 0 i h2]
    rw [List.getD_eq_default _ _ (by simpa using h1 : (splitClean labelsS).length ≤ 0 + i)]
    rw [show (0 : Nat) + i = i from by omega]
    simp [classify_row_entry]
  · intro h3
    exact List.getD_eq_default _ _ h3

theorem c10_witness :
    (splitClean "FP".data).length ≤ 1 ∧ 1 < (splitClean "SIT_A;SIT_B".data).length ∧
      (((process_row "SIT_A;SIT_B".data "FP".data "2".data (fun _ => [])).getD 1
          ([], RowOutcome.fpPass)).2 =
        (if max 1 ((parse_insts "2".data).getD 1 1) ≤
            (((fun _ => ([] : List Str))
                (pyStrip ((splitClean "SIT_A;SIT_B".data).getD 1 []))).filter
              (fun m => !is_placeholder m)).length
          then RowOutcome.tpPass else RowOutcome.tpFail) ∧
        ((parse_insts "2".data).length ≤ 1 → (parse_insts "2".data).getD 1 1 = 1)) :=
  ⟨by decide, by decide,
    c10_short_label_list_defaults_tp "SIT_A;SIT_B".data "FP".data "2".data
      (fun _ => []) 1 (by decide) (by decide)⟩
